import Mathlib

/-!
# Verification of the Aichatbot RAG service against its specification

Shallow embedding of the retrieval-augmented-generation (RAG) layer of the
`sohail-eng/Aichatbot` repository:

* `ai_services/rag_service.py` — `RAGService._split_text_into_chunks`,
  `RAGService._simple_embedding`, `RAGService._calculate_similarity`,
  `RAGService.search_relevant_chunks`, `RAGService.get_context_for_question`,
  `RAGService.clear_file_chunks`;
* `ai_services/chroma_service.py` — `ChromaService._split_text_into_chunks`
  (same chunking loop, with `chunk_size` and `overlap` as parameters);
* `ai_services/file_analyzer.py` — `FileAnalyzer._apply_intelligent_filter`.

Python strings are modelled as `List Char`, Python dicts (which preserve
insertion order and have unique keys) as ordered association lists, and
floating-point numbers as real numbers.  The fallible Python code wraps its
bodies in `try/except`; none of the modelled operations can raise on the
modelled data (all Lean functions are total), which is noted where a claim
speaks about exceptions.
-/

/-! ## Text chunking (`_split_text_into_chunks`)

`rag_service.py` lines 320–342 and `chroma_service.py` lines 356–389 contain
the same loop; the Chroma variant takes `chunk_size` and `overlap` as
parameters (defaults 1000 and 200), the RAG variant uses
`self.chunk_size = 1000` and `self.chunk_overlap = 200`.  We model the loop
once, parametrised, with an explicit fuel argument standing for the `while`
loop; `none` means the fuel ran out before the loop exited. -/

/-- `c == '.' || c == '\n'`: the characters at which
`break_point = max(chunk.rfind('.'), chunk.rfind('\n'))` can break a chunk. -/
def isBreakChar (c : Char) : Bool := c == '.' || c == '\n'

/-- Index of the last character of `l` satisfying `p`, or `none`.
`max(chunk.rfind('.'), chunk.rfind('\n'))` equals the last index holding
either character (with `-1`, i.e. `none`, when neither occurs). -/
def lastIdxWhere (p : Char → Bool) : List Char → Option Nat
  | [] => none
  | c :: t =>
    match lastIdxWhere p t with
    | some j => some (j + 1)
    | none => if p c then some 0 else none

/-- Python `str.strip()` on the characters Lean classifies as whitespace. -/
def stripChars (l : List Char) : List Char :=
  ((l.dropWhile Char.isWhitespace).reverse.dropWhile Char.isWhitespace).reverse

/-- One iteration of the chunking loop body: from the current `start`, return
the chunk that is appended (before `strip`) and the value `end` has when the
iteration finishes.  `text[start:end]` is `(text.drop start).take csize`.
The Python guard `break_point > start + chunk_size * 0.5` compares the
chunk-relative index `break_point` with the absolute quantity
`start + chunk_size * 0.5`; since `chunk_size * 0.5` is computed exactly in
floating point, the comparison is rendered exactly as
`2 * start + csize < 2 * bp`. -/
def chunkAt (csize : Nat) (text : List Char) (start : Nat) : List Char × Nat :=
  if start + csize < text.length then
    match lastIdxWhere isBreakChar ((text.drop start).take csize) with
    | some bp =>
      if 2 * start + csize < 2 * bp then
        ((text.drop start).take (bp + 1), start + bp + 1)
      else
        ((text.drop start).take csize, start + csize)
    | none => ((text.drop start).take csize, start + csize)
  else ((text.drop start).take csize, start + csize)

/-- The value of `start` at the beginning of the next iteration:
`start = end - overlap`. -/
def nextStart (csize ov : Nat) (text : List Char) (start : Nat) : Nat :=
  (chunkAt csize text start).2 - ov

/-- The chunking `while` loop, with fuel.  Each iteration appends
`chunk.strip()` and continues from `end - overlap`; the loop exits as soon as
`start < len(text)` fails. -/
def splitGo (csize ov : Nat) (text : List Char) : Nat → Nat → Option (List (List Char))
  | 0, start => if start < text.length then none else some []
  | fuel + 1, start =>
    if start < text.length then
      (splitGo csize ov text fuel (nextStart csize ov text start)).map
        (fun rest => stripChars (chunkAt csize text start).1 :: rest)
    else some []

/-- `RAGService._split_text_into_chunks` (chunk size 1000, overlap 200).
`text.length + 1` units of fuel are enough (proved below), so the `getD []`
default is never taken. -/
def split_text_into_chunks (text : List Char) : List (List Char) :=
  (splitGo 1000 200 text (text.length + 1) 0).getD []

/-- The concrete failing text for the sentence-boundary rule: 1400 copies of
`a`, one period, 599 more copies of `a` (2000 characters).  Its second window
`text[800:1800]` falls strictly inside the text and has its last period at
window-relative index 600, beyond 50% of the window. -/
def exText : List Char := List.replicate 1400 'a' ++ '.' :: List.replicate 599 'a'

/-! ## Embeddings and similarity (`_simple_embedding`, `_calculate_similarity`)

`rag_service.py` lines 382–401 and 464–484.  Python `re.findall(r'\w+',
text.lower())` splits the lowercased text into maximal runs of word
characters; `\w` is modelled for the ASCII fragment as alphanumeric or
underscore.  `len(word_freq)` is the number of distinct words. -/

/-- ASCII model of the regex class `\w`. -/
def isWordChar (c : Char) : Bool := c.isAlphanum || c == '_'

/-- Accumulator-based scanner returning the maximal runs of word characters,
i.e. `re.findall(r'\w+', ...)`. -/
def wordsAux : List Char → List Char → List (List Char)
  | [], acc => if acc.isEmpty then [] else [acc.reverse]
  | c :: cs, acc =>
    if isWordChar c then wordsAux cs (c :: acc)
    else if acc.isEmpty then wordsAux cs [] else acc.reverse :: wordsAux cs []

/-- `re.findall(r'\w+', text)` as a list of words. -/
def wordsOf (t : List Char) : List (List Char) := wordsAux t []

/-- Sum of squares of a vector; `np.linalg.norm v = Real.sqrt (sumSq v)`. -/
noncomputable def sumSq (v : List ℝ) : ℝ := (v.map (fun x => x ^ 2)).sum

/-- `np.linalg.norm` (the default 2-norm). -/
noncomputable def l2norm (v : List ℝ) : ℝ := Real.sqrt (sumSq v)

/-- The raw statistics vector of `_simple_embedding`:
`[len(word_freq), len(words), len(text)]` = number of distinct words, total
number of words, number of characters. -/
noncomputable def embedVector (t : List Char) : List ℝ :=
  [((wordsOf (t.map Char.toLower)).dedup.length : ℝ),
   ((wordsOf (t.map Char.toLower)).length : ℝ),
   (t.length : ℝ)]

/-- `RAGService._simple_embedding`: the statistics vector, divided by its norm
when the norm is positive (`if norm > 0`). -/
noncomputable def simple_embedding (t : List Char) : List ℝ :=
  if 0 < l2norm (embedVector t) then
    (embedVector t).map (fun v => v / l2norm (embedVector t))
  else embedVector t

/-- Modelled from the spec: plain L2 normalization of a vector, `v / ‖v‖`
when the norm is nonzero and `v` unchanged otherwise, used to compare
`_simple_embedding` against the specification's description. -/
noncomputable def l2_normalize_spec (v : List ℝ) : List ℝ :=
  if l2norm v = 0 then v else v.map (fun x => x / l2norm v)

/-- Zero-padding of `e1` to the common length used by
`_calculate_similarity`: `emb1 + [0] * (max_len - len(emb1))`. -/
noncomputable def padTo (e1 e2 : List ℝ) : List ℝ :=
  e1 ++ List.replicate (max e1.length e2.length - e1.length) (0 : ℝ)

/-- Dot product `sum(a * b for a, b in zip(emb1, emb2))`. -/
noncomputable def dotL (a b : List ℝ) : ℝ := (List.zipWith (fun x y => x * y) a b).sum

/-- `RAGService._calculate_similarity`: cosine similarity of the two vectors
after zero-padding to equal length, returning `0.0` when either norm is
zero. -/
noncomputable def calculate_similarity (e1 e2 : List ℝ) : ℝ :=
  if l2norm (padTo e1 e2) = 0 ∨ l2norm (padTo e2 e1) = 0 then 0
  else dotL (padTo e1 e2) (padTo e2 e1) / (l2norm (padTo e1 e2) * l2norm (padTo e2 e1))

/-! ## The in-memory store and retrieval

`rag_service.py`: `DocumentChunk` and `SearchResult` dataclasses (lines
24–40), the singleton state `document_chunks` / `file_embeddings` (lines
63–65) and the constants of `__init__` (lines 56–70). Of the metadata dict
only the `chunk_type` entry is ever read by the operations modelled here
(`metadata.get('chunk_type', 'unknown')`), so it is the one metadata field
carried by the model. -/

/-- `DocumentChunk`.  `chunk_type_meta` models `metadata.get('chunk_type')`
(`none` when the key is absent). -/
structure DocumentChunk where
  content : List Char
  chunk_type_meta : Option String
  chunk_id : String
  source_file : String
  chunk_index : Nat
  embedding : Option (List ℝ)

/-- `SearchResult` (the `context` field holds the capped preview built by
`search_relevant_chunks`). -/
structure SearchResult where
  chunk : DocumentChunk
  score : ℝ
  source_file : String
  context : List Char

/-- The singleton's in-memory stores: `document_chunks` keyed by chunk id and
`file_embeddings` keyed by file name, both insertion-ordered dicts with
unique keys, modelled as ordered association lists. -/
structure RAGState where
  document_chunks : List (String × DocumentChunk)
  file_embeddings : List (String × List DocumentChunk)

/-- `self.max_results = 10`. -/
def max_results : Nat := 10

/-- `self.similarity_threshold = 0.7`. -/
noncomputable def similarity_threshold : ℝ := 0.7

/-- `content[:500] + "..." if len(content) > 500 else content`. -/
def contentPreview (c : List Char) : List Char :=
  if 500 < c.length then c.take 500 ++ ("...").data else c

/-- `files_to_search = file_names if file_names else list(keys)`: Python
truthiness sends both `None` and the empty list to the full key list. -/
def files_to_search (st : RAGState) : Option (List String) → List String
  | none => st.file_embeddings.map Prod.fst
  | some [] => st.file_embeddings.map Prod.fst
  | some (f :: fs) => f :: fs

/-- The per-chunk body of the search loop: skip chunks without an embedding,
compute the similarity against the query embedding, and keep the chunk as a
`SearchResult` exactly when `similarity >= self.similarity_threshold`. -/
noncomputable def chunkResult (q : List Char) (fn : String) (ch : DocumentChunk) :
    Option SearchResult :=
  match ch.embedding with
  | none => none
  | some emb =>
    if similarity_threshold ≤ calculate_similarity (simple_embedding q) emb then
      some ⟨ch, calculate_similarity (simple_embedding q) emb, fn, contentPreview ch.content⟩
    else none

/-- The unsorted result list accumulated by the two nested loops of
`search_relevant_chunks`: files in `files_to_search` order (files absent from
`file_embeddings` are skipped), chunks in stored order. -/
noncomputable def collect_results (st : RAGState) (q : List Char)
    (file_names : Option (List String)) : List SearchResult :=
  (files_to_search st file_names).flatMap (fun fn =>
    match st.file_embeddings.lookup fn with
    | none => []
    | some chunks => chunks.filterMap (chunkResult q fn))

/-- The comparison underlying `search_results.sort(key=lambda x: x.score,
reverse=True)`: `a` may stay before `b` iff `a.score ≥ b.score`. -/
def relDesc (a b : SearchResult) : Prop := b.score ≤ a.score

noncomputable instance : DecidableRel relDesc := fun a b => Real.decidableLE b.score a.score

instance : IsTotal SearchResult relDesc := ⟨fun a b => le_total b.score a.score⟩

instance : IsTrans SearchResult relDesc := ⟨fun _ _ _ hab hbc => le_trans hbc hab⟩

/-- `RAGService.search_relevant_chunks`: collect the thresholded results,
sort them by non-increasing score (Python's `list.sort` is stable, modelled
by the stable `List.insertionSort`), and return the top
`self.max_results`. -/
noncomputable def search_relevant_chunks (st : RAGState) (q : List Char)
    (file_names : Option (List String)) : List SearchResult :=
  (List.insertionSort relDesc (collect_results st q file_names)).take max_results

/-- One entry of the `sources` list built by `get_context_for_question`. -/
structure SourceEntry where
  file_name : String
  chunk_type : String
  relevance_score : ℝ
  content_preview : List Char

/-- The dict returned by `get_context_for_question`; fields that appear only
in one of the two return branches are `Option`s (`none` = key absent). -/
structure ContextResult where
  success : Bool
  context : List Char
  sources : List SourceEntry
  message : Option (List Char)
  total_sources : Option Nat
  average_relevance : Option ℝ

/-- The fixed failure message
`'No relevant context found in the specified files.'`. -/
def noContextMsg : List Char := ("No relevant context found in the specified files.").data

/-- One `sources` entry: file name, `metadata.get('chunk_type', 'unknown')`,
score, and the preview carried in `result.context`. -/
noncomputable def sourceEntryOf (r : SearchResult) : SourceEntry :=
  ⟨r.source_file, (r.chunk.chunk_type_meta).getD ("unknown"), r.score, r.context⟩

/-- One context part: `f"Source: {result.source_file}\n{result.chunk.content}"`. -/
noncomputable def contextPartOf (r : SearchResult) : List Char :=
  ("Source: ").data ++ r.source_file.data ++ ('\n') :: r.chunk.content

/-- `RAGService.get_context_for_question`: search, and on an empty result
return the failure dict with the fixed message; otherwise assemble the
joined context, the `sources` list, `total_sources` and
`average_relevance`. -/
noncomputable def get_context_for_question (st : RAGState) (q : List Char)
    (fns : List String) : ContextResult :=
  match search_relevant_chunks st q (some fns) with
  | [] => ⟨false, [], [], some noContextMsg, none, none⟩
  | r :: rs =>
    ⟨true,
     List.intercalate (("\n\n---\n\n").data) ((r :: rs).map contextPartOf),
     (r :: rs).map sourceEntryOf,
     none,
     some (r :: rs).length,
     some (((r :: rs).map SearchResult.score).sum / ((r :: rs).length : ℝ))⟩

/-- `RAGService.clear_file_chunks`: when the file is present, delete every
`document_chunks` entry whose key is the id of one of its chunks, then delete
the file's own `file_embeddings` entry. -/
def clear_file_chunks (st : RAGState) (file_name : String) : RAGState :=
  match st.file_embeddings.lookup file_name with
  | none => st
  | some chunks =>
    ⟨st.document_chunks.filter (fun p => !(chunks.any (fun c => c.chunk_id == p.1))),
     st.file_embeddings.filter (fun p => !(p.1 == file_name))⟩

/-! ## The tabular question filter (`FileAnalyzer._apply_intelligent_filter`)

`file_analyzer.py` lines 452–490.  DataFrames are modelled as a column list
plus rows of (column, cell) pairs; a cell is `none` for missing values (NaN),
and `astype(str)` renders NaN as the string `"nan"`.  `str.contains` with the
alternation pattern `'|'.join(down_patterns)` holds iff some pattern is a
substring. -/

/-- Python substring test `needle in hay`. -/
def strContainsSub (needle : List Char) : List Char → Bool
  | [] => needle.isEmpty
  | c :: t => needle.isPrefixOf (c :: t) || strContainsSub needle t

/-- `str(x).lower()` for a column name or question. -/
def lowerStr (s : String) : List Char := s.data.map Char.toLower

/-- A pandas DataFrame: ordered columns and rows of per-column cells
(`none` models NaN). -/
structure DataFrame where
  columns : List String
  rows : List (List (String × Option String))
deriving DecidableEq

/-- `pd.DataFrame()`, the empty frame returned when no filter applies. -/
def emptyDF : DataFrame := ⟨[], []⟩

/-- The cell of `row` in column `col` (`none` when NaN or absent). -/
def getCell (row : List (String × Option String)) (col : String) : Option String :=
  (row.lookup col).getD none

/-- `astype(str)`: NaN prints as `"nan"`. -/
def cellStr : Option String → String
  | none => "nan"
  | some s => s

/-- The column-name cues for a state-like column. -/
def stateWords : List String := ["state", "status", "condition", "health"]

/-- `down_patterns` exactly as in the source — note that it contains
`'active'`. -/
def downPatterns : List String :=
  ["down", "idle", "active", "failed", "disconnect", "inactive", "offline"]

/-- The column-name cues for a name-like column. -/
def nameWords : List String := ["name", "device", "host", "id", "identifier"]

/-- `any(word in str(col).lower() for word in ['state', 'status', 'condition', 'health'])`. -/
def isStateCol (col : String) : Bool :=
  stateWords.any (fun w => strContainsSub w.data (lowerStr col))

/-- `any(word in str(col).lower() for word in ['name', 'device', 'host', 'id', 'identifier'])`. -/
def isNameCol (col : String) : Bool :=
  nameWords.any (fun w => strContainsSub w.data (lowerStr col))

/-- The row mask
`df[state_col].astype(str).str.lower().str.contains('|'.join(down_patterns))`. -/
def rowMatchesDown (stateCol : String) (row : List (String × Option String)) : Bool :=
  downPatterns.any (fun pat => strContainsSub pat.data (lowerStr (cellStr (getCell row stateCol))))

/-- Ascending insertion used to model the sorted group keys of
`df.groupby(...)` (group keys are distinct, so ties cannot arise). -/
def orderedInsertStr (x : String) : List String → List String
  | [] => [x]
  | y :: ys => if x < y then x :: y :: ys else y :: orderedInsertStr x ys

/-- Ascending sort of the group keys (pandas `groupby` sorts keys). -/
def sortStrings (l : List String) : List String := l.foldr orderedInsertStr []

/-- `df.groupby(group_columns[0]).size().reset_index(name='count')`: one row
per distinct non-NaN value of the column (in ascending order), with its
occurrence count rendered as the `count` column. -/
def groupSize (df : DataFrame) (gc : String) : DataFrame :=
  ⟨[gc, "count"],
   (sortStrings ((df.rows.filterMap (fun row => getCell row gc)).dedup)).map
     (fun k => [(gc, some k),
       ("count", some (Nat.repr ((df.rows.filterMap (fun row => getCell row gc)).count k)))])⟩

/-- The `how many` branch: group by the first column whose lowercased name
contains one of the search terms, else the empty frame. -/
def countBranch (df : DataFrame) (question : String) (searchTerms : List String) : DataFrame :=
  if strContainsSub ("how many").data (lowerStr question) then
    match df.columns.filter
        (fun col => searchTerms.any (fun term => strContainsSub term.data (lowerStr col))) with
    | gc :: _ => groupSize df gc
    | [] => emptyDF
  else emptyDF

/-- The `which`/`what` branch (`df.dropna(subset=[name_columns[0]])`), falling
through to the `how many` branch when it does not fire. -/
def nameCountFallback (df : DataFrame) (question : String) (searchTerms : List String) :
    DataFrame :=
  if strContainsSub ("which").data (lowerStr question) ||
      strContainsSub ("what").data (lowerStr question) then
    match df.columns.filter isNameCol with
    | nc :: _ => ⟨df.columns, df.rows.filter (fun row => (getCell row nc).isSome)⟩
    | [] => countBranch df question searchTerms
  else countBranch df question searchTerms

/-- `FileAnalyzer._apply_intelligent_filter`: when a state-like column exists
and the terms contain `down` or `failed`, filter the rows matching
`down_patterns` on the first such column (returning them only when the mask
is non-empty); otherwise fall through to the name-based and count-based
branches, and finally to the empty frame. -/
def apply_intelligent_filter (df : DataFrame) (question : String)
    (searchTerms : List String) : DataFrame :=
  match df.columns.filter isStateCol,
      searchTerms.contains "down" || searchTerms.contains "failed" with
  | sc :: _, true =>
    if df.rows.any (rowMatchesDown sc) then
      ⟨df.columns, df.rows.filter (rowMatchesDown sc)⟩
    else nameCountFallback df question searchTerms
  | _, _ => nameCountFallback df question searchTerms

/-- Modelled from the spec: the down-like vocabulary named by the
specification — `down, idle, inactive, offline, disconnect, failed` — which,
unlike the source's `down_patterns`, does not contain `'active'`. -/
def spec_down_vocabulary : List String :=
  ["down", "idle", "inactive", "offline", "disconnect", "failed"]

/-- Modelled from the spec: a cell value matches the spec vocabulary iff one
of its words is a case-insensitive substring of the value. -/
def spec_down_matches (v : String) : Bool :=
  spec_down_vocabulary.any (fun w => strContainsSub w.data (lowerStr v))

/-- The concrete failing DataFrame for the state filter: a `status` column
whose rows are `active` and `down`. -/
def dfC2 : DataFrame :=
  ⟨["status"], [[("status", some "active")], [("status", some "down")]]⟩

/-! ## Concrete stores used by witnesses and counterexamples -/

/-- A stored chunk of file `f` with a 501-character content and the embedding
of the query `['a']` itself (so its similarity to that query is `1`). -/
noncomputable def chA : DocumentChunk :=
  ⟨List.replicate 501 'x', some "sample_data", "c0", "f", 0,
   some (simple_embedding (['a']))⟩

/-- A store holding only `chA` under file `f`. -/
noncomputable def stA : RAGState := ⟨[("c0", chA)], [("f", [chA])]⟩

/-- The search result produced for `chA` by the query `['a']`. -/
noncomputable def resA : SearchResult :=
  ⟨chA, 1, "f", List.replicate 500 'x' ++ ("...").data⟩

/-- Chunk with index 1 stored under file `f`. -/
noncomputable def chF : DocumentChunk :=
  ⟨['x'], some "columns", "cf", "f", 1, some (simple_embedding (['a']))⟩

/-- Chunk with index 0 stored under file `g`. -/
noncomputable def chG : DocumentChunk :=
  ⟨['y'], some "columns", "cg", "g", 0, some (simple_embedding (['a']))⟩

/-- A store with two one-chunk files whose chunks tie at score 1 for the
query `['a']`: file `f` holds the chunk with index 1, file `g` the chunk
with index 0. -/
noncomputable def stB : RAGState :=
  ⟨[("cf", chF), ("cg", chG)], [("f", [chF]), ("g", [chG])]⟩

/-- The search result for `chF`. -/
noncomputable def resF : SearchResult := ⟨chF, 1, "f", ['x']⟩

/-- The search result for `chG`. -/
noncomputable def resG : SearchResult := ⟨chG, 1, "g", ['y']⟩

/-- The empty store. -/
def stE : RAGState := ⟨[], []⟩

/-- A chunk of file `f` whose id collides with a chunk of `g`. -/
def chCf : DocumentChunk := ⟨['x'], none, "c", "f", 0, none⟩

/-- A chunk of file `g` sharing its id with `chCf`. -/
def chCg : DocumentChunk := ⟨['y'], none, "c", "g", 0, none⟩

/-- A store where files `f` and `g` hold chunks with the same chunk id. -/
def stC : RAGState := ⟨[("c", chCg)], [("f", [chCf]), ("g", [chCg])]⟩

/-- A chunk of file `f` with id `a`. -/
def chWf : DocumentChunk := ⟨['x'], none, "a", "f", 0, none⟩

/-- A chunk of file `g` with id `b`. -/
def chWg : DocumentChunk := ⟨['y'], none, "b", "g", 0, none⟩

/-- A well-formed two-file store with disjoint chunk ids. -/
def stW : RAGState :=
  ⟨[("a", chWf), ("b", chWg)], [("f", [chWf]), ("g", [chWg])]⟩

/-! ## Lemmas about the chunking loop -/

theorem lastIdxWhere_eq_none {p : Char → Bool} :
    ∀ {l : List Char}, (∀ c ∈ l, p c = false) → lastIdxWhere p l = none
  | [], _ => rfl
  | c :: t, h => by
    have ht := lastIdxWhere_eq_none (fun x hx => h x (List.mem_cons_of_mem c hx))
    simp [lastIdxWhere, ht, h c (List.mem_cons_self c t)]

theorem lastIdxWhere_append {p : Char → Bool} (l1 : List Char) {c : Char} {l2 : List Char}
    (hc : p c = true) (h2 : ∀ x ∈ l2, p x = false) :
    lastIdxWhere p (l1 ++ c :: l2) = some l1.length := by
  induction l1 with
  | nil => simp [lastIdxWhere, lastIdxWhere_eq_none h2, hc]
  | cons a t ih => simp [lastIdxWhere, ih]

theorem dropWhile_eq_self_of_all {p : Char → Bool} {l : List Char}
    (h : ∀ c ∈ l, p c = false) : l.dropWhile p = l := by
  cases l with
  | nil => rfl
  | cons a t => simp [List.dropWhile_cons, h a (List.mem_cons_self a t)]

theorem stripChars_eq_self {l : List Char} (h : ∀ c ∈ l, Char.isWhitespace c = false) :
    stripChars l = l := by
  unfold stripChars
  rw [dropWhile_eq_self_of_all h,
    dropWhile_eq_self_of_all (fun c hc => h c (List.mem_reverse.mp hc)),
    List.reverse_reverse]

theorem no_break_in_replicate (n : Nat) :
    ∀ c ∈ List.replicate n 'a', isBreakChar c = false := by
  intro c hc
  rw [List.eq_of_mem_replicate hc]
  decide

theorem no_ws_replicate (n : Nat) :
    ∀ c ∈ List.replicate n 'a', Char.isWhitespace c = false := by
  intro c hc
  rw [List.eq_of_mem_replicate hc]
  decide

theorem no_ws_window800 :
    ∀ c ∈ List.replicate 600 'a' ++ '.' :: List.replicate 399 'a',
      Char.isWhitespace c = false := by
  intro c hc
  rcases List.mem_append.mp hc with h | h
  · rw [List.eq_of_mem_replicate h]; decide
  · rcases List.mem_cons.mp h with h | h
    · rw [h]; decide
    · rw [List.eq_of_mem_replicate h]; decide

theorem exText_length : exText.length = 2000 := by
  unfold exText
  rw [List.length_append, List.length_cons, List.length_replicate, List.length_replicate]

theorem exText_window0 : (exText.drop 0).take 1000 = List.replicate 1000 'a' := by
  rw [List.drop_zero]
  unfold exText
  rw [List.take_append_eq_append_take]
  simp only [List.take_replicate, List.length_replicate]
  rw [show min 1000 1400 = 1000 from by norm_num, show (1000:Nat) - 1400 = 0 from rfl,
    List.take_zero, List.append_nil]

theorem exText_window800 :
    (exText.drop 800).take 1000 = List.replicate 600 'a' ++ '.' :: List.replicate 399 'a' := by
  unfold exText
  rw [List.drop_append_eq_append_drop]
  simp only [List.drop_replicate, List.length_replicate]
  rw [show (800:Nat) - 1400 = 0 from rfl, List.drop_zero, List.take_append_eq_append_take]
  simp only [List.take_replicate, List.length_replicate]
  rw [show min 1000 (1400 - 800) = 600 from by norm_num,
    show (1000:Nat) - (1400 - 800) = 399 + 1 from rfl,
    List.take_succ_cons, List.take_replicate, show min 399 599 = 399 from by norm_num]

theorem exText_window1600 : (exText.drop 1600).take 1000 = List.replicate 400 'a' := by
  unfold exText
  rw [List.drop_append_eq_append_drop]
  simp only [List.drop_replicate, List.length_replicate]
  rw [show (1400:Nat) - 1600 = 0 from rfl, show (1600:Nat) - 1400 = 199 + 1 from rfl,
    List.drop_succ_cons, List.drop_replicate, show (599:Nat) - 199 = 400 from rfl,
    List.replicate_zero, List.nil_append, List.take_replicate,
    show min 1000 400 = 400 from by norm_num]

theorem break_window800 :
    lastIdxWhere isBreakChar (List.replicate 600 'a' ++ '.' :: List.replicate 399 'a') =
      some 600 := by
  have h := lastIdxWhere_append (p := isBreakChar) (List.replicate 600 'a')
    (by decide : isBreakChar '.' = true) (no_break_in_replicate 399)
  rw [List.length_replicate] at h
  exact h

theorem chunkAt_exText_0 : chunkAt 1000 exText 0 = (List.replicate 1000 'a', 1000) := by
  unfold chunkAt
  rw [exText_length, exText_window0, lastIdxWhere_eq_none (no_break_in_replicate 1000),
    if_pos (by norm_num : 0 + 1000 < 2000)]

theorem chunkAt_exText_800 :
    chunkAt 1000 exText 800 =
      (List.replicate 600 'a' ++ '.' :: List.replicate 399 'a', 1800) := by
  unfold chunkAt
  rw [exText_length, exText_window800, break_window800,
    if_pos (by norm_num : 800 + 1000 < 2000)]
  dsimp only
  rw [if_neg (by norm_num : ¬ (2 * 800 + 1000 < 2 * 600))]

theorem chunkAt_exText_1600 : chunkAt 1000 exText 1600 = (List.replicate 400 'a', 2600) := by
  unfold chunkAt
  rw [exText_length, if_neg (by norm_num : ¬ (1600 + 1000 < 2000)), exText_window1600]

theorem split_exText :
    split_text_into_chunks exText =
      [List.replicate 1000 'a',
       List.replicate 600 'a' ++ '.' :: List.replicate 399 'a',
       List.replicate 400 'a'] := by
  have hn0 : nextStart 1000 200 exText 0 = 800 := by
    unfold nextStart; rw [chunkAt_exText_0]; rfl
  have hn800 : nextStart 1000 200 exText 800 = 1600 := by
    unfold nextStart; rw [chunkAt_exText_800]; rfl
  have hn1600 : nextStart 1000 200 exText 1600 = 2400 := by
    unfold nextStart; rw [chunkAt_exText_1600]; rfl
  have h3 : splitGo 1000 200 exText 1998 2400 = some [] := by
    rw [show (1998:Nat) = 1997 + 1 from rfl]
    unfold splitGo
    rw [exText_length, if_neg (by norm_num : ¬ (2400 < 2000))]
  have h2 : splitGo 1000 200 exText 1999 1600 = some [List.replicate 400 'a'] := by
    rw [show (1999:Nat) = 1998 + 1 from rfl]
    unfold splitGo
    rw [exText_length, if_pos (by norm_num : (1600:Nat) < 2000), hn1600, h3,
      chunkAt_exText_1600]
    dsimp only [Option.map_some']
    rw [stripChars_eq_self (no_ws_replicate 400)]
  have h1 : splitGo 1000 200 exText 2000 800 =
      some [List.replicate 600 'a' ++ '.' :: List.replicate 399 'a',
            List.replicate 400 'a'] := by
    rw [show (2000:Nat) = 1999 + 1 from rfl]
    unfold splitGo
    rw [exText_length, if_pos (by norm_num : (800:Nat) < 2000), hn800, h2,
      chunkAt_exText_800]
    dsimp only [Option.map_some']
    rw [stripChars_eq_self no_ws_window800]
  have h0 : splitGo 1000 200 exText 2001 0 =
      some [List.replicate 1000 'a',
            List.replicate 600 'a' ++ '.' :: List.replicate 399 'a',
            List.replicate 400 'a'] := by
    rw [show (2001:Nat) = 2000 + 1 from rfl]
    unfold splitGo
    rw [exText_length, if_pos (by norm_num : (0:Nat) < 2000), hn0, h1, chunkAt_exText_0]
    dsimp only [Option.map_some']
    rw [stripChars_eq_self (no_ws_replicate 1000)]
  unfold split_text_into_chunks
  rw [exText_length, show (2000:Nat) + 1 = 2001 from rfl, h0]
  rfl

/-- C5 (code bug): the sentence-boundary pull-back is governed by
`break_point > start + chunk_size * 0.5`, which compares the chunk-relative
index `break_point` with an absolute offset.  On `exText` the second window
`text[800:1800]` lies strictly inside the text and its last period sits at
relative index 600 — more than 50% of the 1000-character window — yet the
code emits the full hard-boundary 1000-character chunk instead of cutting at
the period, so the specified rule fails for every window other than the
first. -/
theorem c5_second_window_ignores_break :
    split_text_into_chunks exText =
      [List.replicate 1000 'a',
       List.replicate 600 'a' ++ '.' :: List.replicate 399 'a',
       List.replicate 400 'a'] ∧
    lastIdxWhere isBreakChar ((exText.drop 800).take 1000) = some 600 ∧
    800 + 1000 < exText.length ∧ 1000 / 2 < 600 := by
  refine ⟨split_exText, ?_, ?_, by norm_num⟩
  · rw [exText_window800]; exact break_window800
  · rw [exText_length]; norm_num

theorem nextStart_gt (text : List Char) (start : Nat) :
    start < nextStart 1000 200 text start := by
  unfold nextStart chunkAt
  split
  · split
    · split
      · dsimp only
        omega
      · dsimp only
        omega
    · dsimp only
      omega
  · dsimp only
    omega

theorem splitGo_isSome (text : List Char) :
    ∀ (fuel start : Nat), text.length ≤ start + fuel →
      (splitGo 1000 200 text fuel start).isSome = true := by
  intro fuel
  induction fuel with
  | zero =>
    intro start h
    unfold splitGo
    rw [if_neg (by omega)]
    rfl
  | succ n ih =>
    intro start h
    unfold splitGo
    by_cases hs : start < text.length
    · rw [if_pos hs]
      have hgt := nextStart_gt text start
      have h2 := ih (nextStart 1000 200 text start) (by omega)
      simpa using h2
    · rw [if_neg hs]
      rfl

/-- C10: the chunking loop terminates on every finite input.  The loop
variable `start` strictly increases on every iteration; when the iteration
took the hard boundary (`end = start + chunk_size`) the advance is exactly
`chunk_size - overlap = 800`; and `len(text) + 1` units of fuel always let
the loop run to completion, so `split_text_into_chunks` returns a finite
list for every finite input. -/
theorem c10_chunking_terminates :
    (∀ (text : List Char) (start : Nat), start < text.length →
       start < nextStart 1000 200 text start) ∧
    (∀ (text : List Char) (start : Nat), (chunkAt 1000 text start).2 = start + 1000 →
       nextStart 1000 200 text start = start + 800) ∧
    (∀ text : List Char, (splitGo 1000 200 text (text.length + 1) 0).isSome = true) := by
  refine ⟨fun text start _ => nextStart_gt text start, ?_, ?_⟩
  · intro text start h
    unfold nextStart
    rw [h]
    omega
  · intro text
    exact splitGo_isSome text (text.length + 1) 0 (by omega)

/-- Witness for C10 at the concrete text `['a', 'b']` and iteration
`start = 0`. -/
theorem c10_witness :
    ((0:Nat) < (['a', 'b'] : List Char).length) ∧
    0 < nextStart 1000 200 ['a', 'b'] 0 ∧
    (splitGo 1000 200 (['a', 'b'] : List Char) ((['a', 'b'] : List Char).length + 1) 0).isSome
      = true :=
  ⟨by decide, c10_chunking_terminates.1 ['a', 'b'] 0 (by decide),
    c10_chunking_terminates.2.2 ['a', 'b']⟩

/-! ## Lemmas about similarity and the embedding -/

theorem padTo_self (v : List ℝ) : padTo v v = v := by
  unfold padTo
  rw [max_self, Nat.sub_self, List.replicate_zero, List.append_nil]

theorem dotL_self (v : List ℝ) : dotL v v = sumSq v := by
  unfold dotL sumSq
  congr 1
  induction v with
  | nil => rfl
  | cons a t ih => simp [List.zipWith_cons_cons, ih, sq]

theorem sumSq_nonneg (v : List ℝ) : 0 ≤ sumSq v := by
  unfold sumSq
  induction v with
  | nil => simp
  | cons a t ih => simp only [List.map_cons, List.sum_cons]; positivity

theorem calculate_similarity_self {v : List ℝ} (h : 0 < sumSq v) :
    calculate_similarity v v = 1 := by
  unfold calculate_similarity
  rw [padTo_self, dotL_self]
  have hn : l2norm v ≠ 0 := by
    unfold l2norm
    positivity
  rw [if_neg (by push_neg; exact ⟨hn, hn⟩)]
  unfold l2norm
  rw [Real.mul_self_sqrt (le_of_lt h)]
  exact div_self (ne_of_gt h)

theorem wordsOf_a : wordsOf ((['a'] : List Char).map Char.toLower) = [['a']] := by decide

theorem embed_a :
    simple_embedding ['a'] = [1 / Real.sqrt 3, 1 / Real.sqrt 3, 1 / Real.sqrt 3] := by
  have hv : embedVector ['a'] = [(1:ℝ), 1, 1] := by
    unfold embedVector
    rw [wordsOf_a]
    norm_num
  unfold simple_embedding
  rw [hv]
  have hs : sumSq [(1:ℝ), 1, 1] = 3 := by
    unfold sumSq
    norm_num
  have hl : l2norm [(1:ℝ), 1, 1] = Real.sqrt 3 := by
    unfold l2norm
    rw [hs]
  rw [hl, if_pos (Real.sqrt_pos.mpr (by norm_num))]
  norm_num

theorem sumSq_embed_a : sumSq (simple_embedding ['a']) = 1 := by
  rw [embed_a]
  unfold sumSq
  have h3 : Real.sqrt 3 ≠ 0 := by positivity
  have hsq : Real.sqrt 3 ^ 2 = 3 := Real.sq_sqrt (by norm_num)
  field_simp
  norm_num

theorem sim_embed_a :
    calculate_similarity (simple_embedding ['a']) (simple_embedding ['a']) = 1 :=
  calculate_similarity_self (by rw [sumSq_embed_a]; norm_num)

/-! ## Evaluating retrieval on the concrete stores -/

theorem contentPreview_short {c : List Char} (h : c.length ≤ 500) : contentPreview c = c := by
  unfold contentPreview
  rw [if_neg (by omega)]

theorem contentPreview_501 :
    contentPreview (List.replicate 501 'x') = List.replicate 500 'x' ++ ("...").data := by
  unfold contentPreview
  rw [List.length_replicate, if_pos (by norm_num : 500 < 501), List.take_replicate,
    show min 500 501 = 500 from by norm_num]

theorem chunkResult_chA : chunkResult ['a'] ("f") chA = some resA := by
  unfold chunkResult
  rw [show chA.embedding = some (simple_embedding ['a']) from rfl]
  dsimp only
  rw [sim_embed_a]
  unfold similarity_threshold
  rw [if_pos (by norm_num : (0.7:ℝ) ≤ 1)]
  unfold resA
  rw [show chA.content = List.replicate 501 'x' from rfl, contentPreview_501]

theorem collect_stA : collect_results stA ['a'] (some ["f"]) = [resA] := by
  unfold collect_results files_to_search
  rw [List.flatMap_cons, List.flatMap_nil]
  rw [show stA.file_embeddings.lookup ("f") = some [chA] from rfl]
  dsimp only
  rw [List.filterMap_cons, chunkResult_chA]
  rfl

theorem search_stA : search_relevant_chunks stA ['a'] (some ["f"]) = [resA] := by
  unfold search_relevant_chunks
  rw [collect_stA]
  rfl

theorem sources_stA :
    (get_context_for_question stA ['a'] ["f"]).sources = [sourceEntryOf resA] := by
  unfold get_context_for_question
  rw [search_stA]
  rfl

theorem chunkResult_chF : chunkResult ['a'] ("f") chF = some resF := by
  unfold chunkResult
  rw [show chF.embedding = some (simple_embedding ['a']) from rfl]
  dsimp only
  rw [sim_embed_a]
  unfold similarity_threshold
  rw [if_pos (by norm_num : (0.7:ℝ) ≤ 1)]
  unfold resF
  rw [show chF.content = ['x'] from rfl, contentPreview_short (by norm_num)]

theorem chunkResult_chG : chunkResult ['a'] ("g") chG = some resG := by
  unfold chunkResult
  rw [show chG.embedding = some (simple_embedding ['a']) from rfl]
  dsimp only
  rw [sim_embed_a]
  unfold similarity_threshold
  rw [if_pos (by norm_num : (0.7:ℝ) ≤ 1)]
  unfold resG
  rw [show chG.content = ['y'] from rfl, contentPreview_short (by norm_num)]

theorem collect_stB : collect_results stB ['a'] (some ["f", "g"]) = [resF, resG] := by
  unfold collect_results files_to_search
  rw [List.flatMap_cons, List.flatMap_cons, List.flatMap_nil]
  rw [show stB.file_embeddings.lookup ("f") = some [chF] from rfl,
    show stB.file_embeddings.lookup ("g") = some [chG] from rfl]
  dsimp only
  rw [List.filterMap_cons, chunkResult_chF, List.filterMap_cons, chunkResult_chG]
  rfl

theorem search_stB : search_relevant_chunks stB ['a'] (some ["f", "g"]) = [resF, resG] := by
  unfold search_relevant_chunks
  rw [collect_stB]
  rw [show List.insertionSort relDesc [resF, resG] =
      List.orderedInsert relDesc resF (List.orderedInsert relDesc resG []) from rfl]
  rw [show List.orderedInsert relDesc resG [] = [resG] from rfl]
  rw [List.orderedInsert_of_le relDesc [] (show relDesc resF resG from le_refl (1:ℝ))]
  rfl

/-! ## Structure of search results -/

theorem mem_of_mem_search {st : RAGState} {q : List Char} {fnsOpt : Option (List String)}
    {r : SearchResult} (h : r ∈ search_relevant_chunks st q fnsOpt) :
    r ∈ collect_results st q fnsOpt := by
  unfold search_relevant_chunks at h
  exact (List.perm_insertionSort relDesc _).subset ((List.take_sublist _ _).subset h)

theorem collect_shape {st : RAGState} {q : List Char} {fnsOpt : Option (List String)}
    {r : SearchResult} (h : r ∈ collect_results st q fnsOpt) :
    r.source_file ∈ files_to_search st fnsOpt ∧
    similarity_threshold ≤ r.score ∧
    (∃ emb, r.chunk.embedding = some emb ∧
       r.score = calculate_similarity (simple_embedding q) emb) ∧
    (∃ c : List Char, r.context = contentPreview c) := by
  unfold collect_results at h
  rw [List.mem_flatMap] at h
  obtain ⟨fn, hfn, hr⟩ := h
  cases hl : st.file_embeddings.lookup fn with
  | none => rw [hl] at hr; simp at hr
  | some chunks =>
    rw [hl] at hr
    dsimp only at hr
    rw [List.mem_filterMap] at hr
    obtain ⟨ch, _, hres⟩ := hr
    unfold chunkResult at hres
    cases he : ch.embedding with
    | none => rw [he] at hres; simp at hres
    | some emb =>
      rw [he] at hres
      dsimp only at hres
      by_cases hth : similarity_threshold ≤ calculate_similarity (simple_embedding q) emb
      · rw [if_pos hth] at hres
        injection hres with hres2
        subst hres2
        exact ⟨hfn, hth, ⟨emb, he, rfl⟩, ⟨ch.content, rfl⟩⟩
      · rw [if_neg hth] at hres
        simp at hres

/-- C1: with a non-empty file list, every search result's `source_file` is
one of the requested files, and hence every `sources` entry built by
`get_context_for_question` names one of the requested files. -/
theorem c1_file_scope (st : RAGState) (q : List Char) (f : String) (fs : List String) :
    (∀ r ∈ search_relevant_chunks st q (some (f :: fs)), r.source_file ∈ f :: fs) ∧
    (∀ s ∈ (get_context_for_question st q (f :: fs)).sources, s.file_name ∈ f :: fs) := by
  constructor
  · intro r hr
    have h := (collect_shape (mem_of_mem_search hr)).1
    simpa [files_to_search] using h
  · intro s hs
    unfold get_context_for_question at hs
    cases hsr : search_relevant_chunks st q (some (f :: fs)) with
    | nil => rw [hsr] at hs; simp at hs
    | cons r rs =>
      rw [hsr] at hs
      dsimp only at hs
      rw [List.mem_map] at hs
      obtain ⟨r2, hr2, rfl⟩ := hs
      have hmem : r2 ∈ search_relevant_chunks st q (some (f :: fs)) := by
        rw [hsr]; exact hr2
      have h := (collect_shape (mem_of_mem_search hmem)).1
      simpa [files_to_search, sourceEntryOf] using h

/-- Witness for C1: in the store `stA`, the single result of a search scoped
to `["f"]` has `source_file` in `["f"]`, and so does the single `sources`
entry. -/
theorem c1_witness :
    resA.source_file ∈ ("f" :: ([] : List String)) ∧
    (sourceEntryOf resA).file_name ∈ ("f" :: ([] : List String)) :=
  ⟨(c1_file_scope stA ['a'] ("f") []).1 resA
      (by rw [search_stA]; exact List.mem_singleton_self _),
   (c1_file_scope stA ['a'] ("f") []).2 (sourceEntryOf resA)
      (by rw [sources_stA]; exact List.mem_singleton_self _)⟩

/-- C4: every returned result carries a score that is the cosine similarity
of the query embedding with the chunk's stored embedding and is at least the
0.7 threshold; and when every stored chunk scores below the threshold the
search returns the empty list (it cannot raise: the model is a total
function). -/
theorem c4_threshold (st : RAGState) (q : List Char) (fnsOpt : Option (List String)) :
    (∀ r ∈ search_relevant_chunks st q fnsOpt,
       (0.7 : ℝ) ≤ r.score ∧
       ∃ emb, r.chunk.embedding = some emb ∧
         r.score = calculate_similarity (simple_embedding q) emb) ∧
    ((∀ fn chunks, st.file_embeddings.lookup fn = some chunks →
        ∀ ch ∈ chunks, ∀ emb, ch.embedding = some emb →
          calculate_similarity (simple_embedding q) emb < 0.7) →
      search_relevant_chunks st q fnsOpt = []) := by
  constructor
  · intro r hr
    have h := collect_shape (mem_of_mem_search hr)
    exact ⟨h.2.1, h.2.2.1⟩
  · intro hall
    have hc : collect_results st q fnsOpt = [] := by
      unfold collect_results
      rw [List.flatMap_eq_nil_iff]
      intro fn hfn
      cases hl : st.file_embeddings.lookup fn with
      | none => rfl
      | some chunks =>
        dsimp only
        rw [List.filterMap_eq_nil_iff]
        intro ch hch
        unfold chunkResult similarity_threshold
        cases he : ch.embedding with
        | none => rfl
        | some emb =>
          dsimp only
          rw [if_neg (not_le.mpr (hall fn chunks hl ch hch emb he))]
    unfold search_relevant_chunks
    rw [hc]
    rfl

/-- Witness for C4: the concrete result `resA` of store `stA` scores `1 ≥
0.7` with its chunk's stored embedding, and on the empty store `stE` (where
the below-threshold hypothesis holds vacuously) search returns `[]`. -/
theorem c4_witness :
    ((0.7:ℝ) ≤ resA.score ∧ ∃ emb, resA.chunk.embedding = some emb ∧
        resA.score = calculate_similarity (simple_embedding ['a']) emb) ∧
    search_relevant_chunks stE ['a'] (some ["f"]) = [] :=
  ⟨(c4_threshold stA ['a'] (some ["f"])).1 resA
      (by rw [search_stA]; exact List.mem_singleton_self _),
   (c4_threshold stE ['a'] (some ["f"])).2
      (by intro fn chunks hl; simp [stE] at hl)⟩

/-! ## Order and stability of the sort -/

theorem filter_orderedInsert_score (s : ℝ) (x : SearchResult) (l : List SearchResult) :
    (List.orderedInsert relDesc x l).filter (fun r => decide (r.score = s)) =
      (x :: l).filter (fun r => decide (r.score = s)) := by
  induction l with
  | nil => rfl
  | cons y ys ih =>
    by_cases hxy : relDesc x y
    · rw [List.orderedInsert_of_le relDesc ys hxy]
    · simp only [List.orderedInsert]
      rw [if_neg hxy]
      have hlt : x.score < y.score := not_le.mp hxy
      by_cases hx : x.score = s
      · have hy : ¬ (y.score = s) := fun h => (ne_of_lt hlt) (hx.trans h.symm)
        simp [List.filter_cons, ih, hx, hy]
      · simp [List.filter_cons, ih, hx]

theorem filter_insertionSort_score (s : ℝ) (l : List SearchResult) :
    (List.insertionSort relDesc l).filter (fun r => decide (r.score = s)) =
      l.filter (fun r => decide (r.score = s)) := by
  induction l with
  | nil => rfl
  | cons x xs ih =>
    rw [show List.insertionSort relDesc (x :: xs) =
        List.orderedInsert relDesc x (List.insertionSort relDesc xs) from rfl]
    rw [filter_orderedInsert_score]
    simp [List.filter_cons, ih]

/-- C3 (amended): the returned list is sorted by non-increasing score, and
the stable sort preserves, inside every equal-score class, the traversal
order of the collected results — files in `file_names` order, chunks in
stored order — rather than ordering ties by `chunk_index`. -/
theorem c3_sort_order (st : RAGState) (q : List Char) (fnsOpt : Option (List String)) :
    List.Sorted relDesc (search_relevant_chunks st q fnsOpt) ∧
    ∀ s : ℝ,
      (List.insertionSort relDesc (collect_results st q fnsOpt)).filter
          (fun r => decide (r.score = s)) =
        (collect_results st q fnsOpt).filter (fun r => decide (r.score = s)) := by
  refine ⟨?_, fun s => filter_insertionSort_score s _⟩
  unfold search_relevant_chunks
  exact List.Pairwise.sublist (List.take_sublist _ _)
    (List.sorted_insertionSort relDesc _)

/-- C3 (counterexample): in store `stB` the search over `["f", "g"]` returns
two results with exactly equal score `1`, and the first returned result has
`chunk_index = 1` while the second has `chunk_index = 0` — the claimed
ascending-`chunk_index` tie-break fails across files. -/
theorem c3_counterexample :
    ¬ (∀ (i j : Nat) (a b : SearchResult), i < j →
        (search_relevant_chunks stB ['a'] (some ["f", "g"])).get? i = some a →
        (search_relevant_chunks stB ['a'] (some ["f", "g"])).get? j = some b →
        a.score = b.score → a.chunk.chunk_index ≤ b.chunk.chunk_index) := by
  intro h
  have h2 := h 0 1 resF resG (by norm_num)
    (by rw [search_stB]; rfl) (by rw [search_stB]; rfl) rfl
  have h3 : (1:Nat) ≤ 0 := h2
  omega

/-! ## Preview length (C6) -/

theorem contentPreview_length (c : List Char) : (contentPreview c).length ≤ 503 := by
  unfold contentPreview
  split
  · rw [List.length_append, List.length_take,
      show ("...").data.length = 3 from rfl]
    omega
  · omega

/-- C6 (amended): every `sources` entry's preview has length at most 503 —
the chunk content itself when it is at most 500 characters, otherwise its
first 500 characters followed by `"..."`. -/
theorem c6_preview_cap (st : RAGState) (q : List Char) (fns : List String) :
    ∀ s ∈ (get_context_for_question st q fns).sources, s.content_preview.length ≤ 503 := by
  intro s hs
  unfold get_context_for_question at hs
  cases hsr : search_relevant_chunks st q (some fns) with
  | nil => rw [hsr] at hs; simp at hs
  | cons r rs =>
    rw [hsr] at hs
    dsimp only at hs
    rw [List.mem_map] at hs
    obtain ⟨r2, hr2, rfl⟩ := hs
    have hmem : r2 ∈ search_relevant_chunks st q (some fns) := by
      rw [hsr]; exact hr2
    obtain ⟨c, hc⟩ := (collect_shape (mem_of_mem_search hmem)).2.2.2
    show (sourceEntryOf r2).content_preview.length ≤ 503
    unfold sourceEntryOf
    dsimp only
    rw [hc]
    exact contentPreview_length c

/-- Witness for C6 (amended) at the concrete store `stA`. -/
theorem c6_witness :
    sourceEntryOf resA ∈ (get_context_for_question stA ['a'] ["f"]).sources ∧
    (sourceEntryOf resA).content_preview.length ≤ 503 :=
  ⟨by rw [sources_stA]; exact List.mem_singleton_self _,
   c6_preview_cap stA ['a'] ["f"] (sourceEntryOf resA)
     (by rw [sources_stA]; exact List.mem_singleton_self _)⟩

/-- C6 (counterexample): the source entry built for the 501-character chunk
of `stA` has a 503-character preview, so the claimed 500-character cap is
false. -/
theorem c6_counterexample :
    ¬ (∀ s ∈ (get_context_for_question stA ['a'] ["f"]).sources,
        s.content_preview.length ≤ 500) := by
  intro h
  have h2 := h (sourceEntryOf resA) (by rw [sources_stA]; exact List.mem_singleton_self _)
  rw [show (sourceEntryOf resA).content_preview =
      List.replicate 500 'x' ++ ("...").data from rfl,
    List.length_append, List.length_replicate,
    show ("...").data.length = 3 from rfl] at h2
  omega

/-! ## The empty-result message (C7) -/

/-- C7 (counterexample): on the empty store, a search over
`["devices.csv"]` finds nothing, and the failure message is the fixed text
`'No relevant context found in the specified files.'`, which does not
contain the file name `devices.csv` as a substring. -/
theorem c7_counterexample :
    ¬ (∀ fn ∈ (["devices.csv"] : List String),
        strContainsSub fn.data
          ((get_context_for_question stE ['a'] ["devices.csv"]).message.getD []) = true) := by
  intro h
  have h2 := h ("devices.csv") (List.mem_singleton_self _)
  rw [show (get_context_for_question stE ['a'] ["devices.csv"]).message = some noContextMsg
    from rfl] at h2
  exact absurd h2 (by decide)

/-- C7 (amended): whenever retrieval is empty, `get_context_for_question`
returns `success = false` with the fixed explanatory message — which names
no individual file. -/
theorem c7_fixed_message (st : RAGState) (q : List Char) (fns : List String)
    (h : search_relevant_chunks st q (some fns) = []) :
    (get_context_for_question st q fns).success = false ∧
    (get_context_for_question st q fns).message = some noContextMsg := by
  unfold get_context_for_question
  rw [h]
  exact ⟨rfl, rfl⟩

/-- Witness for C7 (amended) on the empty store. -/
theorem c7_witness :
    (get_context_for_question stE ['a'] ["devices.csv"]).success = false ∧
    (get_context_for_question stE ['a'] ["devices.csv"]).message = some noContextMsg :=
  c7_fixed_message stE ['a'] ["devices.csv"] rfl

/-! ## The fallback embedding (C8) -/

/-- C8: `_simple_embedding` returns exactly the L2-normalization of the
3-component statistics vector `[distinct words, total words, characters]`
(the `norm > 0` guard of the code coincides with the `norm ≠ 0` guard of
plain normalization because the norm is non-negative), and on the empty
text the vector is `[0, 0, 0]`, normalization is skipped, and `[0, 0, 0]`
is returned.  The model is a total function, so no exception can occur. -/
theorem c8_simple_embedding_spec :
    (∀ t : List Char, simple_embedding t = l2_normalize_spec (embedVector t)) ∧
    simple_embedding [] = [0, 0, 0] := by
  constructor
  · intro t
    unfold simple_embedding l2_normalize_spec
    have hn : 0 ≤ l2norm (embedVector t) := Real.sqrt_nonneg _
    rcases eq_or_lt_of_le hn with h | h
    · rw [if_neg (by rw [← h]; exact lt_irrefl 0), if_pos h.symm]
    · rw [if_pos h, if_neg (ne_of_gt h)]
  · have hv : embedVector [] = [0, 0, 0] := by
      unfold embedVector
      simp [wordsOf, wordsAux]
    unfold simple_embedding
    rw [hv]
    have hl : l2norm [(0:ℝ), 0, 0] = 0 := by
      unfold l2norm sumSq
      norm_num
    rw [hl, if_neg (lt_irrefl 0)]

/-! ## Deleting a file (C9) -/

theorem lookup_filter_self {β : Type} (l : List (String × β)) (k : String) :
    (l.filter (fun p => !(p.1 == k))).lookup k = none := by
  induction l with
  | nil => rfl
  | cons p t ih =>
    obtain ⟨a, b⟩ := p
    rw [List.filter_cons]
    by_cases ha : a = k
    · subst ha
      simp [ih]
    · have h2 : (k == a) = false := beq_eq_false_iff_ne.mpr (Ne.symm ha)
      simp [ha, h2, ih, List.lookup]

theorem lookup_filter_ne {β : Type} (l : List (String × β)) (g k : String) (h : g ≠ k) :
    (l.filter (fun p => !(p.1 == k))).lookup g = l.lookup g := by
  induction l with
  | nil => rfl
  | cons p t ih =>
    obtain ⟨a, b⟩ := p
    rw [List.filter_cons]
    by_cases ha : a = k
    · subst ha
      have hg : (g == a) = false := beq_eq_false_iff_ne.mpr h
      simp [hg, ih, List.lookup]
    · by_cases hg : g = a
      · subst hg
        simp [ha, List.lookup]
      · have hg2 : (g == a) = false := beq_eq_false_iff_ne.mpr hg
        simp [ha, List.lookup, hg2, ih]

theorem lookup_filter_keep {β : Type} (l : List (String × β)) (k : String)
    (pred : String × β → Bool) (h : ∀ v, pred (k, v) = true) :
    (l.filter pred).lookup k = l.lookup k := by
  induction l with
  | nil => rfl
  | cons p t ih =>
    obtain ⟨a, b⟩ := p
    rw [List.filter_cons]
    by_cases ha : a = k
    · subst ha
      rw [if_pos (h b)]
      simp [List.lookup, ih]
    · have hg : (k == a) = false := beq_eq_false_iff_ne.mpr (Ne.symm ha)
      by_cases hp : pred (a, b) = true
      · rw [if_pos hp]
        simp [List.lookup, hg, ih]
      · rw [if_neg hp, ih]
        simp [List.lookup, hg]

/-- C9 (amended): after `clear_file_chunks f`, unconditionally: any search
scoped to `[f]` returns `[]`, `get_context_for_question` over `[f]` fails,
the stored chunk list of any other file `g` is unchanged, and searches
scoped to `[g]` return exactly the results they returned before the
deletion.  Only the `document_chunks` frame condition needs the proviso
that no chunk of `g` shares a `chunk_id` with a chunk of `f`; it is an
inner hypothesis of that conjunct alone. -/
theorem c9_clear_frame (st : RAGState) (f g : String) (q : List Char)
    (fchunks gchunks : List DocumentChunk)
    (hf : st.file_embeddings.lookup f = some fchunks)
    (hg : st.file_embeddings.lookup g = some gchunks)
    (hfg : f ≠ g) :
    search_relevant_chunks (clear_file_chunks st f) q (some [f]) = [] ∧
    (get_context_for_question (clear_file_chunks st f) q [f]).success = false ∧
    (clear_file_chunks st f).file_embeddings.lookup g = st.file_embeddings.lookup g ∧
    ((∀ c ∈ gchunks, ∀ c2 ∈ fchunks, c.chunk_id ≠ c2.chunk_id) →
      ∀ c ∈ gchunks,
        (clear_file_chunks st f).document_chunks.lookup c.chunk_id =
          st.document_chunks.lookup c.chunk_id) ∧
    search_relevant_chunks (clear_file_chunks st f) q (some [g]) =
      search_relevant_chunks st q (some [g]) := by
  have hclear : clear_file_chunks st f =
      ⟨st.document_chunks.filter (fun p => !(fchunks.any (fun c => c.chunk_id == p.1))),
       st.file_embeddings.filter (fun p => !(p.1 == f))⟩ := by
    unfold clear_file_chunks
    rw [hf]
  have hlf : (clear_file_chunks st f).file_embeddings.lookup f = none := by
    rw [hclear]
    exact lookup_filter_self _ f
  have hlg : (clear_file_chunks st f).file_embeddings.lookup g =
      st.file_embeddings.lookup g := by
    rw [hclear]
    exact lookup_filter_ne _ g f (Ne.symm hfg)
  have hsearchf : search_relevant_chunks (clear_file_chunks st f) q (some [f]) = [] := by
    have hcoll : collect_results (clear_file_chunks st f) q (some [f]) = [] := by
      unfold collect_results files_to_search
      rw [List.flatMap_cons, List.flatMap_nil, hlf]
      rfl
    unfold search_relevant_chunks
    rw [hcoll]
    rfl
  refine ⟨hsearchf, ?_, hlg, ?_, ?_⟩
  · unfold get_context_for_question
    rw [hsearchf]
  · intro hdisj c hc
    rw [hclear]
    exact lookup_filter_keep _ _ _ (fun v => by
      simp only [Bool.not_eq_true', List.any_eq_false]
      intro c2 hc2
      simp [beq_eq_false_iff_ne.mpr (Ne.symm (hdisj c hc c2 hc2))])
  · have hco : collect_results (clear_file_chunks st f) q (some [g]) =
        collect_results st q (some [g]) := by
      unfold collect_results files_to_search
      rw [List.flatMap_cons, List.flatMap_nil, List.flatMap_cons, List.flatMap_nil, hlg]
    unfold search_relevant_chunks
    rw [hco]

/-- Witness for C9 (amended) on the two-file store `stW` with disjoint
chunk ids. -/
theorem c9_witness :
    search_relevant_chunks (clear_file_chunks stW ("f")) ['a'] (some ["f"]) = [] ∧
    (get_context_for_question (clear_file_chunks stW ("f")) ['a'] ["f"]).success = false ∧
    (clear_file_chunks stW ("f")).file_embeddings.lookup ("g") =
      stW.file_embeddings.lookup ("g") ∧
    (∀ c ∈ [chWg],
       (clear_file_chunks stW ("f")).document_chunks.lookup c.chunk_id =
         stW.document_chunks.lookup c.chunk_id) ∧
    search_relevant_chunks (clear_file_chunks stW ("f")) ['a'] (some ["g"]) =
      search_relevant_chunks stW ['a'] (some ["g"]) := by
  have h := c9_clear_frame stW ("f") ("g") ['a'] [chWf] [chWg] rfl rfl (by decide)
  refine ⟨h.1, h.2.1, h.2.2.1, h.2.2.2.1 ?_, h.2.2.2.2⟩
  intro c hc c2 hc2
  rw [List.mem_singleton] at hc hc2
  rw [hc, hc2]
  decide

/-- C9 (counterexample): in the store `stC`, a chunk of `g` shares its
`chunk_id` with a chunk of `f`; deleting `f` then removes `g`'s
`document_chunks` entry, so the claim's unconditional frame condition on
`document_chunks` is false. -/
theorem c9_counterexample :
    ¬ (∀ c ∈ (stC.file_embeddings.lookup ("g")).getD [],
        (clear_file_chunks stC ("f")).document_chunks.lookup c.chunk_id =
          stC.document_chunks.lookup c.chunk_id) := by
  intro h
  have h2 := h chCg (by
    rw [show (stC.file_embeddings.lookup ("g")).getD [] = [chCg] from rfl]
    exact List.mem_singleton_self _)
  rw [show (clear_file_chunks stC ("f")).document_chunks.lookup chCg.chunk_id = none
      from rfl,
    show stC.document_chunks.lookup chCg.chunk_id = some chCg from rfl] at h2
  exact Option.noConfusion h2

/-! ## The state filter on DataFrames (C2) -/

/-- C2 (code bug): on the DataFrame with `status` rows `active` and `down`
and the search terms `["down"]`, `_apply_intelligent_filter` returns both
rows — the whole frame — because the source's `down_patterns` list contains
the word `'active'`; the specification's down-like vocabulary does not match
the value `active`, so the claimed behaviour (only the `down` row) fails. -/
theorem c2_active_matches_down_filter :
    apply_intelligent_filter dfC2 ("interfaces down") ["down"] = dfC2 ∧
    spec_down_matches ("active") = false ∧
    spec_down_matches ("down") = true := by
  refine ⟨by decide, by decide, by decide⟩
